import Mathlib

/-!
# Verification of the spacer flight model and course tracker

A shallow embedding of the quaternion/vector math kernel
(`src/spaceship.py`, `src/game_objects.py`), the rigid-body flight model
(`Spaceship.update`), the course file save/load round trip
(`src/designer.py`), and the gate-crossing tracker, together with proofs
of the specification's claims about them.  Scalars are modelled as exact
real numbers (the source uses IEEE doubles via numpy).
-/

open Real

/-- A 3-component vector, mirroring the numpy length-3 arrays of the source. -/
@[ext] structure Vec3 where
  x : ℝ
  y : ℝ
  z : ℝ

namespace Vec3

instance : Zero Vec3 := ⟨⟨0, 0, 0⟩⟩

instance : Add Vec3 := ⟨fun a b => ⟨a.x + b.x, a.y + b.y, a.z + b.z⟩⟩

instance : Sub Vec3 := ⟨fun a b => ⟨a.x - b.x, a.y - b.y, a.z - b.z⟩⟩

instance : Neg Vec3 := ⟨fun a => ⟨-a.x, -a.y, -a.z⟩⟩

instance : SMul ℝ Vec3 := ⟨fun c a => ⟨c * a.x, c * a.y, c * a.z⟩⟩

@[simp] theorem zero_x : (0 : Vec3).x = 0 := rfl

@[simp] theorem zero_y : (0 : Vec3).y = 0 := rfl

@[simp] theorem zero_z : (0 : Vec3).z = 0 := rfl

@[simp] theorem add_x (a b : Vec3) : (a + b).x = a.x + b.x := rfl

@[simp] theorem add_y (a b : Vec3) : (a + b).y = a.y + b.y := rfl

@[simp] theorem add_z (a b : Vec3) : (a + b).z = a.z + b.z := rfl

@[simp] theorem sub_x (a b : Vec3) : (a - b).x = a.x - b.x := rfl

@[simp] theorem sub_y (a b : Vec3) : (a - b).y = a.y - b.y := rfl

@[simp] theorem sub_z (a b : Vec3) : (a - b).z = a.z - b.z := rfl

@[simp] theorem smul_x (c : ℝ) (a : Vec3) : (c • a).x = c * a.x := rfl

@[simp] theorem smul_y (c : ℝ) (a : Vec3) : (c • a).y = c * a.y := rfl

@[simp] theorem smul_z (c : ℝ) (a : Vec3) : (c • a).z = c * a.z := rfl

end Vec3

/-- Dot product of two vectors (`np.dot` on length-3 arrays). -/
def vdot (a b : Vec3) : ℝ := a.x * b.x + a.y * b.y + a.z * b.z

/-- Squared Euclidean norm of a vector. -/
def vnormSq (a : Vec3) : ℝ := a.x ^ 2 + a.y ^ 2 + a.z ^ 2

/-- Euclidean norm of a vector (`np.linalg.norm` on a length-3 array). -/
noncomputable def vnorm (a : Vec3) : ℝ := Real.sqrt (vnormSq a)

/-- A quaternion in (w, x, y, z) component order, mirroring the numpy
length-4 arrays of the source. -/
@[ext] structure Quat where
  w : ℝ
  x : ℝ
  y : ℝ
  z : ℝ

namespace Quat

instance : Zero Quat := ⟨⟨0, 0, 0, 0⟩⟩

instance : Add Quat := ⟨fun a b => ⟨a.w + b.w, a.x + b.x, a.y + b.y, a.z + b.z⟩⟩

instance : SMul ℝ Quat := ⟨fun c a => ⟨c * a.w, c * a.x, c * a.y, c * a.z⟩⟩

@[simp] theorem qzero_w : (0 : Quat).w = 0 := rfl

@[simp] theorem qzero_x : (0 : Quat).x = 0 := rfl

@[simp] theorem qzero_y : (0 : Quat).y = 0 := rfl

@[simp] theorem qzero_z : (0 : Quat).z = 0 := rfl

@[simp] theorem qadd_w (a b : Quat) : (a + b).w = a.w + b.w := rfl

@[simp] theorem qadd_x (a b : Quat) : (a + b).x = a.x + b.x := rfl

@[simp] theorem qadd_y (a b : Quat) : (a + b).y = a.y + b.y := rfl

@[simp] theorem qadd_z (a b : Quat) : (a + b).z = a.z + b.z := rfl

@[simp] theorem qsmul_w (c : ℝ) (a : Quat) : (c • a).w = c * a.w := rfl

@[simp] theorem qsmul_x (c : ℝ) (a : Quat) : (c • a).x = c * a.x := rfl

@[simp] theorem qsmul_y (c : ℝ) (a : Quat) : (c • a).y = c * a.y := rfl

@[simp] theorem qsmul_z (c : ℝ) (a : Quat) : (c • a).z = c * a.z := rfl

end Quat

/-- `q_conjugate` of `src/spaceship.py`: negate the vector part. -/
def q_conjugate (q : Quat) : Quat := ⟨q.w, -q.x, -q.y, -q.z⟩

/-- `q_multiply` of `src/spaceship.py`: the Hamilton product. -/
def q_multiply (q1 q2 : Quat) : Quat :=
  ⟨q1.w * q2.w - q1.x * q2.x - q1.y * q2.y - q1.z * q2.z,
   q1.w * q2.x + q1.x * q2.w + q1.y * q2.z - q1.z * q2.y,
   q1.w * q2.y - q1.x * q2.z + q1.y * q2.w + q1.z * q2.x,
   q1.w * q2.z + q1.x * q2.y - q1.y * q2.x + q1.z * q2.w⟩

/-- Embeds a vector as a pure quaternion, mirroring
`np.concatenate(([0.0], v))`. -/
def pureQuat (v : Vec3) : Quat := ⟨0, v.x, v.y, v.z⟩

/-- `qv_rotate` of `src/spaceship.py`: rotates `v` by `q` via
`q * (0, v) * conjugate(q)`, returning the vector part. -/
def qv_rotate (q : Quat) (v : Vec3) : Vec3 :=
  let r := q_multiply (q_multiply q (pureQuat v)) (q_conjugate q)
  ⟨r.x, r.y, r.z⟩

/-- Squared norm of a quaternion. -/
def quatNormSq (q : Quat) : ℝ := q.w ^ 2 + q.x ^ 2 + q.y ^ 2 + q.z ^ 2

/-- Norm of a quaternion (`np.linalg.norm` on a length-4 array). -/
noncomputable def quatNorm (q : Quat) : ℝ := Real.sqrt (quatNormSq q)

/-- The squared length of a rotated vector is `‖q‖⁴` times the squared
length of the input — a polynomial identity of the Hamilton product. -/
theorem vnormSq_qv_rotate (q : Quat) (v : Vec3) :
    vnormSq (qv_rotate q v) = quatNormSq q ^ 2 * vnormSq v := by
  simp only [qv_rotate, q_multiply, q_conjugate, pureQuat, vnormSq, quatNormSq]
  ring

/-- C5: for every unit quaternion `q` and every vector `v`, rotation by
`q` preserves Euclidean length: `‖qv_rotate q v‖ = ‖v‖`. -/
theorem qv_rotate_preserves_norm (q : Quat) (v : Vec3)
    (h : quatNorm q = 1) : vnorm (qv_rotate q v) = vnorm v := by
  have hsq : quatNormSq q = 1 := Real.sqrt_eq_one.mp (by simpa [quatNorm] using h)
  simp [vnorm, vnormSq_qv_rotate, hsq]

/-- Witness for C5 at the identity quaternion and the vector (1, 2, 3). -/
theorem qv_rotate_preserves_norm_witness :
    vnorm (qv_rotate ⟨1, 0, 0, 0⟩ ⟨1, 2, 3⟩) = vnorm ⟨1, 2, 3⟩ :=
  qv_rotate_preserves_norm ⟨1, 0, 0, 0⟩ ⟨1, 2, 3⟩
    (by simp [quatNorm, quatNormSq])

/-- C9: rotation is a homomorphism for the Hamilton product: rotating by
`q_multiply q1 q2` equals rotating by `q2` and then by `q1`, for all
quaternions (unit or not) and all vectors. -/
theorem qv_rotate_q_multiply (q1 q2 : Quat) (v : Vec3) :
    qv_rotate (q_multiply q1 q2) v = qv_rotate q1 (qv_rotate q2 v) := by
  ext <;> · simp only [qv_rotate, q_multiply, q_conjugate, pureQuat]; ring

/-! ## The rigid-body flight model (`Spaceship` of `src/spaceship.py`) -/

/-- Ship mass in kg (`self.mass = 20000.0`). -/
def shipMass : ℝ := 20000

/-- Diagonal inertia-tensor entry `I_xx = (1/12) * mass * (dy² + dz²)`
for the 15 m × 15 m × 40 m cuboid. -/
noncomputable def inertiaXX : ℝ := (1 / 12) * shipMass * (15 ^ 2 + 40 ^ 2)

/-- Diagonal inertia-tensor entry `I_yy = (1/12) * mass * (dx² + dz²)`. -/
noncomputable def inertiaYY : ℝ := (1 / 12) * shipMass * (15 ^ 2 + 40 ^ 2)

/-- Diagonal inertia-tensor entry `I_zz = (1/12) * mass * (dx² + dy²)`. -/
noncomputable def inertiaZZ : ℝ := (1 / 12) * shipMass * (15 ^ 2 + 15 ^ 2)

/-- Moment arm for pitch: `dz / 2`. -/
noncomputable def momentArmPitch : ℝ := 40 / 2

/-- Moment arm for yaw: `dx / 2`. -/
noncomputable def momentArmYaw : ℝ := 15 / 2

/-- Moment arm for roll: `sqrt((dx/2)² + (dy/2)²)`. -/
noncomputable def momentArmRoll : ℝ := Real.sqrt ((15 / 2) ^ 2 + (15 / 2) ^ 2)

/-- Main thruster minimum force in N. -/
def mainThrusterMinForce : ℝ := 1000

/-- Main thruster maximum force in N. -/
def mainThrusterMaxForce : ℝ := 3000

/-- Steering thruster force in N. -/
def steeringThrusterForce : ℝ := 200

/-- The mutable state of `Spaceship`: world-space position and velocity,
body-to-world orientation quaternion, body-space angular velocity. -/
structure ShipState where
  position : Vec3
  velocity : Vec3
  orientation : Quat
  angular_velocity : Vec3

/-- The initial ship state set up by `Spaceship.__init__`: origin, at
rest, identity orientation, no spin. -/
def initShip : ShipState :=
  { position := 0, velocity := 0, orientation := ⟨1, 0, 0, 0⟩, angular_velocity := 0 }

/-- `get_forward_vector`: the world-space forward axis
`qv_rotate(orientation, (0,0,1))`. -/
def get_forward_vector (s : ShipState) : Vec3 := qv_rotate s.orientation ⟨0, 0, 1⟩

/-- The main-thruster force of `Spaceship.update` (lines 87–89): the
magnitude interpolates `minForce + (maxForce − minForce) * thrust_input`,
directed along the forward vector, but the force is the zero vector
whenever `thrust_input > 0` fails. -/
noncomputable def shipForce (s : ShipState) (thrust_input : ℝ) : Vec3 :=
  let thrust_magnitude :=
    mainThrusterMinForce + (mainThrusterMaxForce - mainThrusterMinForce) * thrust_input
  if thrust_input > 0 then thrust_magnitude • get_forward_vector s else 0

/-- The body-frame steering torque of `Spaceship.update` (lines 93–97). -/
noncomputable def shipTorque (pitch_input yaw_input roll_input : ℝ) : Vec3 :=
  ⟨pitch_input * steeringThrusterForce * momentArmPitch,
   yaw_input * steeringThrusterForce * momentArmYaw,
   roll_input * steeringThrusterForce * momentArmRoll⟩

/-- The angular velocity after the torque integration step of
`Spaceship.update` (lines 108–109): `ω + (I⁻¹ τ) * dt`, the inverse of
the diagonal inertia tensor acting componentwise. -/
noncomputable def angularVelAfterTorque (s : ShipState) (dt pitch_input yaw_input roll_input : ℝ) :
    Vec3 :=
  let torque := shipTorque pitch_input yaw_input roll_input
  let angular_acceleration : Vec3 :=
    ⟨inertiaXX⁻¹ * torque.x, inertiaYY⁻¹ * torque.y, inertiaZZ⁻¹ * torque.z⟩
  s.angular_velocity + dt • angular_acceleration

/-- The first-order-integrated orientation quaternion of
`Spaceship.update` (lines 113–116), before renormalization:
`q + (0.5 * q_multiply(q, (0, ω′))) * dt` with ω′ the post-torque
angular velocity. -/
noncomputable def preNormOrientation (s : ShipState) (dt pitch_input yaw_input roll_input : ℝ) :
    Quat :=
  let w_quat := pureQuat (angularVelAfterTorque s dt pitch_input yaw_input roll_input)
  let q_derivative := (0.5 : ℝ) • q_multiply s.orientation w_quat
  s.orientation + dt • q_derivative

/-- `Spaceship.update`: one integration step of the flight model, taking
`dt` and the four control inputs and producing the next state, in the
exact statement order of the source (force, torque, semi-implicit linear
Euler, angular Euler, first-order quaternion step, renormalize-if-nonzero,
angular damping when all rotational inputs are exactly zero). -/
noncomputable def shipUpdate (s : ShipState)
    (dt thrust_input pitch_input yaw_input roll_input : ℝ) : ShipState :=
  let force := shipForce s thrust_input
  let linear_acceleration := shipMass⁻¹ • force
  let velocity' := s.velocity + dt • linear_acceleration
  let position' := s.position + dt • velocity'
  let angular_velocity' := angularVelAfterTorque s dt pitch_input yaw_input roll_input
  let q' := preNormOrientation s dt pitch_input yaw_input roll_input
  let norm' := quatNorm q'
  let orientation' := if norm' > 0 then norm'⁻¹ • q' else q'
  let has_rot_input := pitch_input ≠ 0 ∨ yaw_input ≠ 0 ∨ roll_input ≠ 0
  let angular_velocity'' :=
    if has_rot_input then angular_velocity'
    else (1 - 1.5 * dt) • angular_velocity'
  { position := position', velocity := velocity',
    orientation := orientation', angular_velocity := angular_velocity'' }

/-- C1: with `thrust_input = 0` the update applies the zero force (the
interpolation toward `minForce` is gated off), so one step leaves the
linear velocity unchanged, for every state, every `dt` and any
rotational inputs. -/
theorem shipUpdate_zero_thrust_velocity (s : ShipState) (dt p y r : ℝ) :
    shipForce s 0 = 0 ∧ (shipUpdate s dt 0 p y r).velocity = s.velocity := by
  have hf : shipForce s 0 = 0 := by
    simp [shipForce]
  refine ⟨hf, ?_⟩
  simp [shipUpdate, hf]
  ext <;> simp

/-- C6: the linear integration is semi-implicit Euler — the new velocity
is `v + (force/mass) * dt`, and the new position is
`p + v_new * dt`, using the already-updated velocity. -/
theorem shipUpdate_semi_implicit_euler (s : ShipState) (dt t p y r : ℝ) :
    (shipUpdate s dt t p y r).velocity
      = s.velocity + dt • (shipMass⁻¹ • shipForce s t) ∧
    (shipUpdate s dt t p y r).position
      = s.position + dt • (shipUpdate s dt t p y r).velocity := by
  constructor <;> rfl

/-- Scaling a vector scales its Euclidean norm by the absolute value of
the scalar. -/
theorem vnorm_smul (c : ℝ) (v : Vec3) : vnorm (c • v) = |c| * vnorm v := by
  simp only [vnorm, vnormSq, Vec3.smul_x, Vec3.smul_y, Vec3.smul_z]
  rw [show (c * v.x) ^ 2 + (c * v.y) ^ 2 + (c * v.z) ^ 2
        = c ^ 2 * (v.x ^ 2 + v.y ^ 2 + v.z ^ 2) by ring,
      Real.sqrt_mul (sq_nonneg c), Real.sqrt_sq_eq_abs]

/-- A non-zero vector has strictly positive squared norm. -/
theorem vnormSq_pos (v : Vec3) (h : v ≠ 0) : 0 < vnormSq v := by
  rcases (show (0:ℝ) ≤ vnormSq v by simp only [vnormSq]; positivity).lt_or_eq with hlt | heq
  · exact hlt
  · exfalso
    apply h
    simp only [vnormSq] at heq
    have hx : v.x = 0 := by
      have : v.x ^ 2 = 0 := by nlinarith [sq_nonneg v.x, sq_nonneg v.y, sq_nonneg v.z]
      exact pow_eq_zero_iff two_ne_zero |>.mp this
    have hy : v.y = 0 := by
      have : v.y ^ 2 = 0 := by nlinarith [sq_nonneg v.x, sq_nonneg v.y, sq_nonneg v.z]
      exact pow_eq_zero_iff two_ne_zero |>.mp this
    have hz : v.z = 0 := by
      have : v.z ^ 2 = 0 := by nlinarith [sq_nonneg v.x, sq_nonneg v.y, sq_nonneg v.z]
      exact pow_eq_zero_iff two_ne_zero |>.mp this
    ext <;> simp [hx, hy, hz]

/-- A non-zero vector has strictly positive Euclidean norm. -/
theorem vnorm_pos (v : Vec3) (h : v ≠ 0) : 0 < vnorm v :=
  Real.sqrt_pos.mpr (vnormSq_pos v h)

/-- Scaling a quaternion scales its norm by the absolute value of the
scalar. -/
theorem quatNorm_smul (c : ℝ) (q : Quat) : quatNorm (c • q) = |c| * quatNorm q := by
  simp only [quatNorm, quatNormSq, Quat.qsmul_w, Quat.qsmul_x, Quat.qsmul_y, Quat.qsmul_z]
  rw [show (c * q.w) ^ 2 + (c * q.x) ^ 2 + (c * q.y) ^ 2 + (c * q.z) ^ 2
        = c ^ 2 * (q.w ^ 2 + q.x ^ 2 + q.y ^ 2 + q.z ^ 2) by ring,
      Real.sqrt_mul (sq_nonneg c), Real.sqrt_sq_eq_abs]

/-- A non-zero quaternion has strictly positive squared norm. -/
theorem quatNormSq_pos (q : Quat) (h : q ≠ 0) : 0 < quatNormSq q := by
  rcases (show (0:ℝ) ≤ quatNormSq q by simp only [quatNormSq]; positivity).lt_or_eq with hlt | heq
  · exact hlt
  · exfalso
    apply h
    simp only [quatNormSq] at heq
    have hw : q.w = 0 := by
      have : q.w ^ 2 = 0 := by
        nlinarith [sq_nonneg q.w, sq_nonneg q.x, sq_nonneg q.y, sq_nonneg q.z]
      exact pow_eq_zero_iff two_ne_zero |>.mp this
    have hx : q.x = 0 := by
      have : q.x ^ 2 = 0 := by
        nlinarith [sq_nonneg q.w, sq_nonneg q.x, sq_nonneg q.y, sq_nonneg q.z]
      exact pow_eq_zero_iff two_ne_zero |>.mp this
    have hy : q.y = 0 := by
      have : q.y ^ 2 = 0 := by
        nlinarith [sq_nonneg q.w, sq_nonneg q.x, sq_nonneg q.y, sq_nonneg q.z]
      exact pow_eq_zero_iff two_ne_zero |>.mp this
    have hz : q.z = 0 := by
      have : q.z ^ 2 = 0 := by
        nlinarith [sq_nonneg q.w, sq_nonneg q.x, sq_nonneg q.y, sq_nonneg q.z]
      exact pow_eq_zero_iff two_ne_zero |>.mp this
    ext <;> simp [hw, hx, hy, hz]

/-- C2: angular damping is applied by `update` exactly when all three
rotational inputs are exactly zero, scaling the angular velocity by
`(1 − 1.5·dt)`; with zero rotational inputs, a non-zero angular velocity
and `0 < 1.5·dt < 1`, its magnitude strictly decreases in one step; with
any non-zero rotational input the damping scaling is skipped and the
angular velocity is exactly the torque-integrated value. -/
theorem shipUpdate_angular_damping (s : ShipState) (dt t p y r : ℝ) :
    (p = 0 ∧ y = 0 ∧ r = 0 →
      (shipUpdate s dt t p y r).angular_velocity
        = (1 - 1.5 * dt) • s.angular_velocity) ∧
    (p = 0 ∧ y = 0 ∧ r = 0 → s.angular_velocity ≠ 0 →
      0 < 1.5 * dt → 1.5 * dt < 1 →
      vnorm ((shipUpdate s dt t p y r).angular_velocity)
        < vnorm s.angular_velocity) ∧
    ((p ≠ 0 ∨ y ≠ 0 ∨ r ≠ 0) →
      (shipUpdate s dt t p y r).angular_velocity
        = angularVelAfterTorque s dt p y r) := by
  have hzero : p = 0 ∧ y = 0 ∧ r = 0 →
      (shipUpdate s dt t p y r).angular_velocity
        = (1 - 1.5 * dt) • s.angular_velocity := by
    rintro ⟨hp, hy, hr⟩
    subst hp; subst hy; subst hr
    ext <;> simp [shipUpdate, angularVelAfterTorque, shipTorque]
  refine ⟨hzero, ?_, ?_⟩
  · rintro hin hω hd1 hd2
    rw [hzero hin, vnorm_smul]
    have habs : |1 - 1.5 * dt| = 1 - 1.5 * dt := abs_of_pos (by linarith)
    have hn : 0 < vnorm s.angular_velocity := vnorm_pos _ hω
    rw [habs]
    nlinarith
  · intro h
    simp only [shipUpdate]
    rw [if_pos h]

/-- Witness for C2: a ship spinning at (1, 0, 0) rad/s with all inputs
zero and dt = 1/10 strictly loses angular speed in one step. -/
theorem shipUpdate_angular_damping_witness :
    (0:ℝ) < 1.5 * (1 / 10) ∧ (1.5 : ℝ) * (1 / 10) < 1 ∧
    vnorm ((shipUpdate ⟨0, 0, ⟨1, 0, 0, 0⟩, ⟨1, 0, 0⟩⟩ (1 / 10) 0 0 0 0).angular_velocity)
      < vnorm (⟨1, 0, 0⟩ : Vec3) :=
  ⟨by norm_num, by norm_num,
    (shipUpdate_angular_damping ⟨0, 0, ⟨1, 0, 0, 0⟩, ⟨1, 0, 0⟩⟩ (1 / 10) 0 0 0 0).2.1
      ⟨rfl, rfl, rfl⟩
      (by simp [Vec3.ext_iff])
      (by norm_num) (by norm_num)⟩

/-- C3: after `update`, the orientation quaternion has unit norm whenever
the first-order-integrated (pre-normalization) quaternion is non-zero;
when that quaternion is exactly zero it is left unchanged by the
normalization guard. -/
theorem shipUpdate_orientation_norm (s : ShipState) (dt t p y r : ℝ) :
    (preNormOrientation s dt p y r ≠ 0 →
      quatNorm ((shipUpdate s dt t p y r).orientation) = 1) ∧
    (preNormOrientation s dt p y r = 0 →
      (shipUpdate s dt t p y r).orientation = preNormOrientation s dt p y r) := by
  constructor
  · intro h
    have hpos : 0 < quatNormSq (preNormOrientation s dt p y r) :=
      quatNormSq_pos _ h
    have hnpos : 0 < quatNorm (preNormOrientation s dt p y r) :=
      Real.sqrt_pos.mpr hpos
    have hor : (shipUpdate s dt t p y r).orientation
        = (quatNorm (preNormOrientation s dt p y r))⁻¹ • preNormOrientation s dt p y r := by
      simp only [shipUpdate]
      rw [if_pos hnpos]
    rw [hor, quatNorm_smul, abs_of_pos (inv_pos.mpr hnpos),
        inv_mul_cancel₀ (ne_of_gt hnpos)]
  · intro h
    simp only [shipUpdate]
    rw [if_neg]
    rw [h]
    simp [quatNorm, quatNormSq]

/-- Witness for C3: one step from the initial ship state with dt = 1 has
a non-zero pre-normalization quaternion and yields a unit orientation. -/
theorem shipUpdate_orientation_norm_witness :
    preNormOrientation initShip 1 0 0 0 ≠ 0 ∧
    quatNorm ((shipUpdate initShip 1 0 0 0 0).orientation) = 1 := by
  have h : preNormOrientation initShip 1 0 0 0 ≠ 0 := by
    simp [preNormOrientation, angularVelAfterTorque, shipTorque, pureQuat,
      q_multiply, initShip, Quat.ext_iff]
  exact ⟨h, (shipUpdate_orientation_norm initShip 1 0 0 0 0).1 h⟩

/-! ## Axis-angle construction (`q_from_axis_angle` of `src/game_objects.py`) -/

/-- `q_from_axis_angle`: normalizes the axis by dividing by its norm
(no guard), then builds `(cos(angle/2), sin(angle/2) * axis)`. -/
noncomputable def q_from_axis_angle (axis : Vec3) (angle : ℝ) : Quat :=
  let a := (vnorm axis)⁻¹ • axis
  let half_angle := angle / 2
  ⟨Real.cos half_angle, a.x * Real.sin half_angle,
   a.y * Real.sin half_angle, a.z * Real.sin half_angle⟩

/-- C10: for every non-zero axis and every angle, `q_from_axis_angle`
returns a quaternion of exactly unit norm, so gate orientations built
from it meet the unit-norm precondition of rotation. -/
theorem q_from_axis_angle_unit (axis : Vec3) (angle : ℝ) (h : axis ≠ 0) :
    quatNorm (q_from_axis_angle axis angle) = 1 := by
  have hS : 0 < vnormSq axis := vnormSq_pos axis h
  have hn2 : vnorm axis ^ 2 = vnormSq axis := Real.sq_sqrt hS.le
  have hsq : quatNormSq (q_from_axis_angle axis angle) = 1 := by
    simp only [q_from_axis_angle, quatNormSq, Vec3.smul_x, Vec3.smul_y, Vec3.smul_z]
    rw [show Real.cos (angle / 2) ^ 2
          + ((vnorm axis)⁻¹ * axis.x * Real.sin (angle / 2)) ^ 2
          + ((vnorm axis)⁻¹ * axis.y * Real.sin (angle / 2)) ^ 2
          + ((vnorm axis)⁻¹ * axis.z * Real.sin (angle / 2)) ^ 2
        = Real.cos (angle / 2) ^ 2
          + Real.sin (angle / 2) ^ 2
            * ((axis.x ^ 2 + axis.y ^ 2 + axis.z ^ 2) * (vnorm axis ^ 2)⁻¹) by ring,
        hn2]
    rw [show axis.x ^ 2 + axis.y ^ 2 + axis.z ^ 2 = vnormSq axis from rfl,
        mul_inv_cancel₀ (ne_of_gt hS), mul_one]
    exact Real.cos_sq_add_sin_sq (angle / 2)
  rw [quatNorm, hsq, Real.sqrt_one]

/-- Witness for C10 at axis (1, 0, 0) and angle 0. -/
theorem q_from_axis_angle_unit_witness :
    (⟨1, 0, 0⟩ : Vec3) ≠ 0 ∧ quatNorm (q_from_axis_angle ⟨1, 0, 0⟩ 0) = 1 :=
  ⟨by simp [Vec3.ext_iff], q_from_axis_angle_unit ⟨1, 0, 0⟩ 0 (by simp [Vec3.ext_iff])⟩

/-- Float-level model of `q_from_axis_angle`: in the source the axis is
divided by its norm with no guard, so a zero-length axis divides 0 by 0,
which in numpy produces NaN components that flow into the returned
quaternion.  The NaN-contaminated outcome is modelled as `none`; a
defined quaternion result as `some`. -/
noncomputable def q_from_axis_angle_fl (axis : Vec3) (angle : ℝ) : Option Quat :=
  if vnorm axis = 0 then none else some (q_from_axis_angle axis angle)

/-- C7 counterexample: at the zero axis (and angle 0) the construction
silently produces NaN components — there is no assertion and no
documented fallback quaternion, contrary to the claim. -/
theorem q_from_axis_angle_zero_axis_nan :
    q_from_axis_angle_fl ⟨0, 0, 0⟩ 0 = none := by
  rw [q_from_axis_angle_fl, if_pos]
  simp [vnorm, vnormSq]

/-- C7 amended: for every angle, `q_from_axis_angle` on the zero axis
performs an unguarded division by a zero norm and silently propagates
NaN (modelled `none`); callers must guarantee a non-zero axis. -/
theorem q_from_axis_angle_zero_axis (angle : ℝ) :
    q_from_axis_angle_fl ⟨0, 0, 0⟩ angle = none := by
  rw [q_from_axis_angle_fl, if_pos]
  simp [vnorm, vnormSq]

/-! ## Gates and the course/encounter tracker -/

/-- A race gate (`Gate` of `src/game_objects.py`): position, orientation,
opening radius `size`, and the `is_passed` flag. -/
structure Gate where
  position : Vec3
  orientation : Quat
  size : ℝ
  is_passed : Bool

/-- `Gate.__init__`: stores position, orientation and size and starts
with `is_passed = False`. -/
def mkGate (position : Vec3) (orientation : Quat) (size : ℝ) : Gate :=
  { position := position, orientation := orientation, size := size, is_passed := false }

/-- The square wireframe model built by `Gate.__init__` (render-only
data, derived purely from the gate's size). -/
def gateVertices (size : ℝ) : List Vec3 :=
  [⟨-size, -size, 0⟩, ⟨size, -size, 0⟩, ⟨size, size, 0⟩, ⟨-size, size, 0⟩]

/-- The gate's plane normal: the gate orientation applied to +Z. -/
def gateNormal (g : Gate) : Vec3 := qv_rotate g.orientation ⟨0, 0, 1⟩

/-- The overall tracker status of the spec's course/encounter tracker. -/
inductive GameStatus where
  | Playing
  | GameOver
  | CourseComplete
deriving DecidableEq

/-- The tracker's per-session state: active-gate index, previous-tick
signed-distance baseline (none = no baseline yet), overall status. -/
structure TrackerState where
  activeIdx : Nat
  prevD : Option ℝ
  status : GameStatus

/-- Sign of a real number, as used in the spec's
`sign(d) != sign(previousD)` crossing test. -/
noncomputable def rsign (x : ℝ) : ℝ := if 0 < x then 1 else if x < 0 then -1 else 0

/-- Modelled from the spec: the per-tick gate-crossing step of the
course/encounter tracker (spec §4.3 step 2) — the tracker code itself is
absent from the provided sources (only the `Gate` data it reads is
present).  When still `Playing` with an active gate remaining, it
computes the signed distance `d` from the ship to the gate plane; with no
baseline it records `d`; on a sign change against the baseline it tests
the in-plane offset `(shipPos − gate.position) − d·normal` against the
gate radius, and on success marks the gate passed, advances the
active-gate index, clears the baseline, and moves to `CourseComplete`
when that was the last gate; an out-of-radius crossing clears the
baseline; otherwise the baseline becomes `d`. -/
noncomputable def gateCrossTick (gates : List Gate) (shipPos : Vec3) (st : TrackerState) :
    List Gate × TrackerState :=
  if st.status ≠ GameStatus.Playing then (gates, st) else
  match gates.get? st.activeIdx with
  | none => (gates, st)
  | some g =>
    let d := vdot (shipPos - g.position) (gateNormal g)
    match st.prevD with
    | none => (gates, { st with prevD := some d })
    | some d0 =>
      if rsign d ≠ rsign d0 then
        if vnorm ((shipPos - g.position) - d • gateNormal g) < g.size then
          (gates.set st.activeIdx { g with is_passed := true },
            { activeIdx := st.activeIdx + 1, prevD := none,
              status := if st.activeIdx + 1 = gates.length then GameStatus.CourseComplete
                        else GameStatus.Playing })
        else (gates, { st with prevD := none })
      else (gates, { st with prevD := some d })

/-- C4: on a tick where a baseline exists, the signed distance changes
sign against it, and the in-plane offset is strictly inside the gate
radius, the tracker marks the active gate passed (its `is_passed`, false
at creation, becomes true), increments the active-gate index, clears the
baseline, and is in `CourseComplete` exactly when that gate was the last
one. -/
theorem gateCrossTick_pass (gates : List Gate) (pos : Vec3) (st : TrackerState)
    (g : Gate) (d0 : ℝ)
    (hst : st.status = GameStatus.Playing)
    (hg : gates.get? st.activeIdx = some g)
    (hprev : st.prevD = some d0)
    (hsign : rsign (vdot (pos - g.position) (gateNormal g)) ≠ rsign d0)
    (hin : vnorm ((pos - g.position)
        - (vdot (pos - g.position) (gateNormal g)) • gateNormal g) < g.size) :
    (gateCrossTick gates pos st).1
      = gates.set st.activeIdx { g with is_passed := true } ∧
    (gateCrossTick gates pos st).2.activeIdx = st.activeIdx + 1 ∧
    (gateCrossTick gates pos st).2.prevD = none ∧
    ((gateCrossTick gates pos st).2.status = GameStatus.CourseComplete
      ↔ st.activeIdx + 1 = gates.length) ∧
    (mkGate g.position g.orientation g.size).is_passed = false := by
  have hred : gateCrossTick gates pos st
      = (gates.set st.activeIdx { g with is_passed := true },
          { activeIdx := st.activeIdx + 1, prevD := none,
            status := if st.activeIdx + 1 = gates.length then GameStatus.CourseComplete
                      else GameStatus.Playing }) := by
    rw [gateCrossTick, if_neg (by simp [hst]), hg]
    simp only [hprev]
    rw [if_pos hsign, if_pos hin]
  refine ⟨by rw [hred], by rw [hred], by rw [hred], ?_, rfl⟩
  rw [hred]
  by_cases hlen : st.activeIdx + 1 = gates.length
  · simp [hlen]
  · simp [hlen]

/-- Witness for C4, the spec's in-bounds crossing example: one gate at
the origin with identity orientation and radius 10, baseline −1, ship
now at (0, 0, 1): the index advances and the baseline clears. -/
theorem gateCrossTick_pass_witness :
    (gateCrossTick [mkGate 0 ⟨1, 0, 0, 0⟩ 10] ⟨0, 0, 1⟩
        ⟨0, some (-1), GameStatus.Playing⟩).2.activeIdx = 0 + 1 ∧
    (gateCrossTick [mkGate 0 ⟨1, 0, 0, 0⟩ 10] ⟨0, 0, 1⟩
        ⟨0, some (-1), GameStatus.Playing⟩).2.prevD = none := by
  have h := gateCrossTick_pass [mkGate 0 ⟨1, 0, 0, 0⟩ 10] ⟨0, 0, 1⟩
      ⟨0, some (-1), GameStatus.Playing⟩ (mkGate 0 ⟨1, 0, 0, 0⟩ 10) (-1)
      rfl rfl rfl
      (by norm_num [rsign, vdot, gateNormal, mkGate, qv_rotate, q_multiply,
        q_conjugate, pureQuat])
      (by norm_num [vnorm, vnormSq, vdot, gateNormal, mkGate, qv_rotate,
        q_multiply, q_conjugate, pureQuat])
  exact ⟨h.2.1, h.2.2.1⟩

/-! ## Course file save/load (`save_course_to_file` of `src/designer.py`) -/

/-- A designer-scene gate, with the fields `save_course_to_file` reads
(`g.position`, `g.orientation`, `g.size`). -/
structure DesignGate where
  position : Vec3
  orientation : Quat
  size : ℝ

/-- A designer-scene asteroid, with the fields `save_course_to_file`
reads (`a.model_id`, `a.position`, `a.orientation`, `a.size`,
`a.angular_velocity`). -/
structure DesignAsteroid where
  model_id : String
  position : Vec3
  orientation : Quat
  size : ℝ
  angular_velocity : Vec3

/-- The course file's boundary record; `width` is optional in the file
and defaulted by the loader. -/
structure Boundaries where
  width : Option ℝ
  height : ℝ
  depth : ℝ

/-- A gate record of the course file's `race_gates` list. -/
structure SavedGate where
  gate_number : Nat
  position : Vec3
  orientation : Quat
  size : ℝ

/-- An asteroid record of the course file's `asteroids` list. -/
structure SavedAsteroid where
  model_id : String
  position : Vec3
  orientation : Quat
  size : ℝ
  angular_velocity : Vec3

/-- The structured content of a course file. -/
structure CourseData where
  version : Nat
  course_name : String
  boundaries : Boundaries
  race_gates : List SavedGate
  asteroids : List SavedAsteroid

/-- The `enumerate(gates)` loop of `save_course_to_file`: gate records in
list order with `gate_number = i + 1`. -/
def numberGates : Nat → List DesignGate → List SavedGate
  | _, [] => []
  | k, g :: gs => ⟨k, g.position, g.orientation, g.size⟩ :: numberGates (k + 1) gs

/-- `save_course_to_file` of `src/designer.py`: builds the course record
with version 1, fixed 20000³ boundaries, the gates numbered from 1 in
list order, and the asteroid records in list order. -/
def save_course_to_file (gates : List DesignGate) (asteroids : List DesignAsteroid) :
    CourseData :=
  { version := 1
    course_name := "Designer Course"
    boundaries := ⟨some 20000, 20000, 20000⟩
    race_gates := numberGates 1 gates
    asteroids := asteroids.map fun a =>
      ⟨a.model_id, a.position, a.orientation, a.size, a.angular_velocity⟩ }

/-- Modelled from the spec: `load_course_from_file` (imported by
`src/designer.py` but absent from the provided sources) reconstructs the
gate and asteroid entities preserving list order and defaults
`boundaries.width` to 20000 if absent. -/
def load_course_from_file (c : CourseData) :
    List DesignGate × List DesignAsteroid × ℝ :=
  (c.race_gates.map fun r => ⟨r.position, r.orientation, r.size⟩,
   c.asteroids.map fun r =>
     ⟨r.model_id, r.position, r.orientation, r.size, r.angular_velocity⟩,
   c.boundaries.width.getD 20000)

/-- Stripping the numbering added by the save loop recovers the original
gate list, whatever the starting number. -/
theorem numberGates_round (k : Nat) (gs : List DesignGate) :
    (numberGates k gs).map (fun r => (⟨r.position, r.orientation, r.size⟩ : DesignGate))
      = gs := by
  induction gs generalizing k with
  | nil => rfl
  | cons g gs ih => simp [numberGates, ih]

/-- The numbering added by the save loop counts up from the starting
number in list order. -/
theorem numberGates_numbers (k : Nat) (gs : List DesignGate) :
    (numberGates k gs).map SavedGate.gate_number = List.range' k gs.length := by
  induction gs generalizing k with
  | nil => rfl
  | cons g gs ih => simp [numberGates, List.range', ih]

/-- C8: saving a course and reloading it reproduces the gate list and the
asteroid list exactly — identical positions, orientations and sizes in
identical order — and the saved gate numbers are 1, 2, … in list order. -/
theorem course_round_trip (gates : List DesignGate) (asteroids : List DesignAsteroid) :
    (load_course_from_file (save_course_to_file gates asteroids)).1 = gates ∧
    (load_course_from_file (save_course_to_file gates asteroids)).2.1 = asteroids ∧
    (save_course_to_file gates asteroids).race_gates.map SavedGate.gate_number
      = List.range' 1 gates.length := by
  refine ⟨numberGates_round 1 gates, ?_, numberGates_numbers 1 gates⟩
  simp only [load_course_from_file, save_course_to_file, List.map_map]
  have : ∀ as : List DesignAsteroid, as.map
      ((fun r : SavedAsteroid =>
          (⟨r.model_id, r.position, r.orientation, r.size, r.angular_velocity⟩ : DesignAsteroid))
        ∘ (fun a : DesignAsteroid =>
          (⟨a.model_id, a.position, a.orientation, a.size, a.angular_velocity⟩ : SavedAsteroid)))
      = as := by
    intro as
    induction as with
    | nil => rfl
    | cons a as ih => simp [ih]
  exact this asteroids
